import Mathlib

/-!
Verification of the training-data assembly, training and scoring pipeline of
`4__Predictor.py` (Stock-Market-LSTM repository).

The pipeline is shallowly embedded:

* A per-instrument feature table is a `List SrcRow`; a row carries the value
  of the date column, the (possibly null) value of the target column
  `percent_change_Close`, and the remaining numeric feature values.
  Numeric values are modelled as exact rationals.
* The Assembler (`prepare_training_data`) shifts the target column by -1,
  trims two rows at each end (`iloc[2:-2]`), drops null targets, filters the
  target to [-10000, 10000], concatenates the surviving tables, groups by
  date and shuffles within each group.  The unseeded within-group shuffle
  (`DataFrame.sample(frac=1)`) is modelled as an arbitrary function argument
  that is assumed to permute its input.  `pd.concat` of an empty collection
  raises, which is modelled by an `Option` result (`none` = fatal error).
* The Trainer (`train_random_forest`) binarizes the target, splits the rows
  positionally at `int(len(X) * 0.9)`, builds the classifier record, applies
  the dual confidence-threshold rule to held-out probability rows and
  evaluates sklearn-style metrics on the non-abstained pairs.  The fitted
  ensemble itself is opaque; its `predict_proba` output is a function
  argument producing a probability pair per row.
* The Scorer (`predict_and_save`) coerces the date column with
  `pd.to_datetime`, scores each row and appends the `UpProbability` and
  `UpPrediction` columns.

Rational literals written in the source as decimal floats (0.62, 1.5, 1.75,
0.10) are embedded as reduced `Rat.mk'` literals so that every definition
evaluates by kernel reduction; theorems restate them in decimal form.
-/

/-- A row of a per-instrument input table: the date value, the value of the
target column `percent_change_Close` (`none` models a NaN entry), and the
remaining feature values. -/
structure SrcRow where
  date : Int
  target : Option ℚ
  feats : List ℚ
deriving DecidableEq, Repr

/-- A row after `df[target_column] = df[target_column].shift(-1)`: `idx` is
the pandas row index (position in the source table, preserved by the
subsequent slicing and filtering), `starget` the shifted target. -/
structure ShRow where
  idx : Nat
  date : Int
  starget : Option ℚ
  feats : List ℚ
deriving DecidableEq, Repr

/-- A fully transformed row of the consolidated training table: the shifted
target is known to be non-null. -/
structure FRow where
  idx : Nat
  date : Int
  target : ℚ
  feats : List ℚ
deriving DecidableEq, Repr

/-- An input file as seen by the Assembler's per-file guard
`df.shape[0] > 50 and target_column in df.columns and date_column in df.columns`:
its rows plus the presence flags for the two required columns. -/
structure SrcFile where
  rows : List SrcRow
  hasTargetCol : Bool
  hasDateCol : Bool
deriving DecidableEq, Repr

/-- `df[target_column].shift(-1)`, carried out positionally: the row at
position `k + i` of the result holds the original row `i`'s date and
features together with the original target of row `i + 1` (none at the
end of the table). -/
def shiftAux : Nat → List SrcRow → List ShRow
  | _, [] => []
  | k, r :: rest =>
    { idx := k, date := r.date, starget := rest[0]?.bind SrcRow.target,
      feats := r.feats } :: shiftAux (k + 1) rest

/-- The target column shifted by -1 row (line 80 of the source). -/
def shift_target (tbl : List SrcRow) : List ShRow := shiftAux 0 tbl

/-- `df.iloc[2:-2]` (line 82): keep positions 2 .. length-3. -/
def trim (l : List α) : List α := (l.drop 2).take (l.length - 4)

/-- `df.dropna(subset=[target_column])` (line 84): keep rows whose shifted
target is non-null, extracting the value. -/
def dropna (l : List ShRow) : List FRow :=
  l.filterMap fun r => r.starget.map fun t =>
    { idx := r.idx, date := r.date, target := t, feats := r.feats }

/-- The filter predicate of line 86:
`(df[target_column] <= 10000) & (df[target_column] >= -10000)`. -/
def targetInRange (t : ℚ) : Bool := decide (t ≤ 10000) && decide (-10000 ≤ t)

/-- Line 86: keep rows whose shifted target lies in [-10000, 10000]. -/
def filterTargetRange (l : List FRow) : List FRow :=
  l.filter fun r => targetInRange r.target

/-- The whole per-file transform of lines 80-86: shift, trim two rows at
each end, drop null targets, apply the range filter. -/
def transformFile (tbl : List SrcRow) : List FRow :=
  filterTargetRange (dropna (trim (shift_target tbl)))

/-- The per-file guard of line 76. -/
def keepFile (f : SrcFile) : Bool :=
  decide (50 < f.rows.length) && f.hasTargetCol && f.hasDateCol

/-- Number of trimmed rows discarded by `dropna` (null shifted target). -/
def dropped_null (tbl : List SrcRow) : Nat :=
  ((trim (shift_target tbl)).filter fun r => r.starget.isNone).length

/-- Number of trimmed rows whose non-null shifted target falls strictly
outside [-10000, 10000]. -/
def dropped_out_of_range (tbl : List SrcRow) : Nat :=
  ((trim (shift_target tbl)).filter fun r =>
    match r.starget with
    | some t => !targetInRange t
    | none => false).length

/-- `combined_df = pd.concat(all_data)` (line 91): concatenation of the
transformed tables of the files that pass the per-file guard. -/
def combined_df (files : List SrcFile) : List FRow :=
  (files.filter keepFile).flatMap fun f => transformFile f.rows

/-- The distinct dates of the consolidated rows in ascending order:
`df.groupby(date_column)` iterates its groups in sorted key order. -/
def sortedDates (l : List FRow) : List Int :=
  List.insertionSort (· ≤ ·) (l.map FRow.date).dedup

/-- `grouped = combined_df.groupby(date_column)` (line 93): one block per
distinct date, in ascending date order, each block in original row order. -/
def groupByDate (l : List FRow) : List (List FRow) :=
  (sortedDates l).map fun d => l.filter fun r => decide (r.date = d)

/-- Lines 94-95: shuffle each date group (`group.sample(frac=1)`, modelled
by the function argument `shuffle`) and concatenate the groups. -/
def final_df (shuffle : List FRow → List FRow) (files : List SrcFile) : List FRow :=
  ((groupByDate (combined_df files)).map shuffle).flatten

/-- `prepare_training_data` on the non-reuse path (lines 63-98).  `none`
models a raised exception: `pd.concat` raises on an empty collection, which
happens at line 91 when no file passes the guard and at line 95 when the
concatenated table has no rows (an empty frame yields no groups). -/
def prepare_training_data (shuffle : List FRow → List FRow)
    (files : List SrcFile) : Option (List FRow) :=
  if files.filter keepFile = [] then none
  else if groupByDate (combined_df files) = [] then none
  else some (final_df shuffle files)

/-- The full call including the reuse branch and the state of the canonical
output path `training_data.parquet` (lines 56-98).  The first component of
the result is the file content at the canonical path after the call
(`none` = no file), the second the returned table (`none` = the call
raised).  On the non-reuse path the existing file is removed (lines 67-68)
before any input file is read, so a later fatal error leaves no file. -/
def prepareRun (reuse : Bool) (prior : Option (List FRow))
    (shuffle : List FRow → List FRow) (files : List SrcFile) :
    Option (List FRow) × Option (List FRow) :=
  match reuse, prior with
  | true, some t => (some t, some t)
  | _, _ =>
    match prepare_training_data shuffle files with
    | none => (none, none)
    | some t => (some t, some t)

/-- 0.62 (the default of both confidence thresholds and the Scorer cutoff)
as an exact rational. -/
def ratLit62 : ℚ := ⟨31, 50, by norm_num, by norm_num⟩

/-- 1.5, the class-1 weight hard-coded at the classifier construction. -/
def ratLit150 : ℚ := ⟨3, 2, by norm_num, by norm_num⟩

/-- 1.75, the class-1 weight declared in the configuration record. -/
def ratLit175 : ℚ := ⟨7, 4, by norm_num, by norm_num⟩

/-- 0.10, the configured `max_features` fraction. -/
def ratLit010 : ℚ := ⟨1, 10, by norm_num, by norm_num⟩

/-- The configuration record (lines 23-50). -/
structure Config where
  input_directory : String
  model_output_directory : String
  data_output_directory : String
  prediction_output_directory : String
  feature_importance_output : String
  file_selection_percentage : Nat
  target_column : String
  n_estimators : Nat
  criterion : String
  max_depth : Option Nat
  min_samples_split : Nat
  min_samples_leaf : Nat
  min_weight_fraction_leaf : ℚ
  max_features : ℚ
  max_leaf_nodes : Option Nat
  min_impurity_decrease : ℚ
  bootstrap : Bool
  oob_score : Bool
  random_state : Nat
  verbose : Nat
  warm_start : Bool
  class_weight : ℚ × ℚ
  ccp_alpha : ℚ
  max_samples : Option ℚ
deriving DecidableEq, Repr

/-- The `config` dictionary of lines 23-50 with the default
`--runpercent` value 50. -/
def config : Config where
  input_directory := "Data/IndicatorData"
  model_output_directory := "Data/ModelData"
  data_output_directory := "Data/ModelData/TrainingData"
  prediction_output_directory := "Data/RFpredictions"
  feature_importance_output := "Data/ModelData/FeatureImportances/feature_importance.parquet"
  file_selection_percentage := 50
  target_column := "percent_change_Close"
  n_estimators := 128
  criterion := "entropy"
  max_depth := some 15
  min_samples_split := 8
  min_samples_leaf := 4
  min_weight_fraction_leaf := 0
  max_features := ratLit010
  max_leaf_nodes := none
  min_impurity_decrease := 0
  bootstrap := true
  oob_score := false
  random_state := 3301
  verbose := 2
  warm_start := false
  class_weight := (1, ratLit175)
  ccp_alpha := 0
  max_samples := none

/-- The argument record of the `RandomForestClassifier(...)` constructor
call of lines 130-149. -/
structure RFParams where
  n_estimators : Nat
  criterion : String
  max_depth : Option Nat
  min_samples_split : Nat
  min_samples_leaf : Nat
  min_weight_fraction_leaf : ℚ
  max_features : ℚ
  max_leaf_nodes : Option Nat
  min_impurity_decrease : ℚ
  bootstrap : Bool
  oob_score : Bool
  random_state : Nat
  verbose : Nat
  warm_start : Bool
  class_weight : ℚ × ℚ
  ccp_alpha : ℚ
  max_samples : Option ℚ
  n_jobs : Int
deriving DecidableEq, Repr

/-- The constructor call of lines 130-149: every hyperparameter is read from
the configuration record except `class_weight`, which is the hard-coded
literal `{0: 1, 1: 1.5}`, and `n_jobs = -1`. -/
def rf_classifier (cfg : Config) : RFParams where
  n_estimators := cfg.n_estimators
  criterion := cfg.criterion
  max_depth := cfg.max_depth
  min_samples_split := cfg.min_samples_split
  min_samples_leaf := cfg.min_samples_leaf
  min_weight_fraction_leaf := cfg.min_weight_fraction_leaf
  max_features := cfg.max_features
  max_leaf_nodes := cfg.max_leaf_nodes
  min_impurity_decrease := cfg.min_impurity_decrease
  bootstrap := cfg.bootstrap
  oob_score := cfg.oob_score
  random_state := cfg.random_state
  verbose := cfg.verbose
  warm_start := cfg.warm_start
  class_weight := (1, ratLit150)
  ccp_alpha := cfg.ccp_alpha
  max_samples := cfg.max_samples
  n_jobs := -1

/-- `y.apply(lambda x: 1 if x > 0 else 0)` (line 118). -/
def binarize (t : ℚ) : Int := if 0 < t then 1 else 0

/-- `split_index = int(len(X) * 0.9)` (line 125); the floor of 0.9 times the
row count (the float product agrees with the exact floor for these sizes). -/
def split_index (n : Nat) : Nat := 9 * n / 10

/-- `X_train = X.iloc[:split_index]` (line 126): the first rows, in current
order, of the consolidated table. -/
def X_train (l : List FRow) : List FRow := l.take (split_index l.length)

/-- `X_test = X.iloc[split_index:]` (line 126): the remaining final rows. -/
def X_test (l : List FRow) : List FRow := l.drop (split_index l.length)

/-- Default value of the `confidence_threshold_pos` parameter (line 105). -/
def confidence_threshold_pos : ℚ := ratLit62

/-- Default value of the `confidence_threshold_neg` parameter (line 105). -/
def confidence_threshold_neg : ℚ := ratLit62

/-- The dual-threshold rule of lines 155-158 applied to one probability row
`p = (P(class 0), P(class 1))`:
`np.where(proba[:, 1] >= pos, 1, np.where(proba[:, 0] >= neg, 0, -1))`. -/
def thresholdPred (pos neg : ℚ) (p : ℚ × ℚ) : Int :=
  if pos ≤ p.2 then 1 else if neg ≤ p.1 then 0 else -1

/-- `y_pred` of lines 155-158: the rule applied to every held-out row. -/
def predictions (pos neg : ℚ) (probs : List (ℚ × ℚ)) : List Int :=
  probs.map (thresholdPred pos neg)

/-- Lines 161-163: `mask = y_pred != -1` and the simultaneous filtering of
`y_test` and `y_pred`; the retained (true label, prediction) pairs. -/
def retainedPairs (ys preds : List Int) : List (Int × Int) :=
  (ys.zip preds).filter fun q => !(q.2 == -1)

/-- Count of pairs satisfying a predicate. -/
def countPairs (p : Int × Int → Bool) (l : List (Int × Int)) : Nat :=
  (l.filter p).length

/-- Division that reports 0 on a zero denominator: the behaviour selected by
sklearn's `zero_division=0` (and the value produced, with a warning, by the
default `zero_division="warn"`). -/
def safeDiv (a b : ℚ) : ℚ := if b = 0 then 0 else a / b

/-- `sklearn.metrics.accuracy_score`: the fraction of matching pairs.  The
function has no `zero_division` parameter; on an empty input the mean of an
empty array is NaN, modelled as `none`. -/
def accuracy_score (l : List (Int × Int)) : Option ℚ :=
  if l.isEmpty then none
  else some ((countPairs (fun q => q.1 == q.2) l : ℚ) / (l.length : ℚ))

/-- The class labels occurring among true labels and predictions, each once,
in ascending order (sklearn's `labels=None` default). -/
def labelsOf (l : List (Int × Int)) : List Int :=
  List.insertionSort (· ≤ ·) (l.map Prod.fst ++ l.map Prod.snd).dedup

/-- Support of class `c`: the number of true labels equal to `c`. -/
def supportOf (c : Int) (l : List (Int × Int)) : Nat :=
  countPairs (fun q => q.1 == c) l

/-- Number of predictions equal to `c`. -/
def predictedOf (c : Int) (l : List (Int × Int)) : Nat :=
  countPairs (fun q => q.2 == c) l

/-- True positives of class `c`. -/
def truePosOf (c : Int) (l : List (Int × Int)) : Nat :=
  countPairs (fun q => q.1 == c && q.2 == c) l

/-- Per-class precision with zero-division value 0. -/
def precisionOf (c : Int) (l : List (Int × Int)) : ℚ :=
  safeDiv (truePosOf c l) (predictedOf c l)

/-- Per-class recall with zero-division value 0. -/
def recallOf (c : Int) (l : List (Int × Int)) : ℚ :=
  safeDiv (truePosOf c l) (supportOf c l)

/-- Per-class F1 (harmonic mean of precision and recall) with zero-division
value 0. -/
def f1Of (c : Int) (l : List (Int × Int)) : ℚ :=
  safeDiv (2 * precisionOf c l * recallOf c l) (precisionOf c l + recallOf c l)

/-- `average='weighted'`: the support-weighted mean of a per-class metric,
with zero-division value 0 when the total support is zero. -/
def weightedAvg (m : Int → List (Int × Int) → ℚ) (l : List (Int × Int)) : ℚ :=
  safeDiv (((labelsOf l).map fun c => (supportOf c l : ℚ) * m c l).sum) (l.length : ℚ)

/-- `f1_score(..., average='weighted')` (line 167). -/
def f1_score (l : List (Int × Int)) : ℚ := weightedAvg f1Of l

/-- `precision_score(..., average='weighted')` (line 168). -/
def precision_score (l : List (Int × Int)) : ℚ := weightedAvg precisionOf l

/-- `recall_score(..., average='weighted')` (line 169). -/
def recall_score (l : List (Int × Int)) : ℚ := weightedAvg recallOf l

/-- `classification_report(..., zero_division=0)` (line 176): per class, the
tuple (label, precision, recall, F1, support). -/
def classification_report (l : List (Int × Int)) : List (Int × ℚ × ℚ × ℚ × Nat) :=
  (labelsOf l).map fun c => (c, precisionOf c l, recallOf c l, f1Of c l, supportOf c l)

/-- The held-out evaluation of lines 154-169: threshold the probability
rows, drop abstentions, and compute (accuracy, weighted F1, weighted
precision, weighted recall) on the retained pairs. -/
def evaluateModel (pos neg : ℚ) (ys : List Int) (probs : List (ℚ × ℚ)) :
    Option ℚ × ℚ × ℚ × ℚ :=
  let l := retainedPairs ys (predictions pos neg probs)
  (accuracy_score l, f1_score l, precision_score l, recall_score l)

/-- A value of the date column at scoring time: either already temporal
(`ts`) or a textual entry that `pd.to_datetime` will parse. -/
inductive DateVal where
  | raw (s : String)
  | ts (t : Int)
deriving DecidableEq, Repr

/-- `pd.to_datetime` (line 217): parses textual entries (via the external
parser `parse`), leaves temporal entries unchanged. -/
def to_datetime (parse : String → Int) : DateVal → DateVal
  | DateVal.raw s => DateVal.ts (parse s)
  | DateVal.ts t => DateVal.ts t

/-- A row of a Scorer input table. -/
structure SRow where
  date : DateVal
  target : ℚ
  feats : List ℚ
deriving DecidableEq, Repr

/-- A row of a Scorer output table: the input row (with the coerced date)
plus the appended `UpProbability` and `UpPrediction` columns. -/
structure ScoredRow where
  date : DateVal
  target : ℚ
  feats : List ℚ
  upProbability : ℚ
  upPrediction : Int
deriving DecidableEq, Repr

/-- The Scorer cutoff 0.62 hard-coded at line 228. -/
def up_threshold : ℚ := ratLit62

/-- A two-class probability vector: non-negative entries summing to 1 (the
contract of the persisted model's `predict_proba`). -/
def isProbPair (p : ℚ × ℚ) : Prop := 0 ≤ p.1 ∧ 0 ≤ p.2 ∧ p.1 + p.2 = 1

/-- The per-file body of `predict_and_save` (lines 214-232): coerce the
date column, score every row (`model` is the loaded ensemble's
`predict_proba` on the row's feature vector), append
`UpProbability = P(class 1)` and `UpPrediction = 1 iff UpProbability ≥ 0.62`. -/
def predict_and_save (model : List ℚ → ℚ × ℚ) (parse : String → Int)
    (tbl : List SRow) : List ScoredRow :=
  tbl.map fun r =>
    let p := model r.feats
    { date := to_datetime parse r.date, target := r.target, feats := r.feats,
      upProbability := p.2,
      upPrediction := if up_threshold ≤ p.2 then 1 else 0 }

/-- Every date of `l` lies in one contiguous block. -/
def datesContiguous (l : List FRow) : Prop :=
  ∀ d : Int, ∃ p m s, l = p ++ m ++ s ∧ (∀ r ∈ m, r.date = d) ∧
    (∀ r ∈ p, r.date ≠ d) ∧ (∀ r ∈ s, r.date ≠ d)

/-- A 51-row demonstration input file: every date 0, every target 1. -/
def demoFile : SrcFile :=
  { rows := List.replicate 51 { date := 0, target := some 1, feats := [] },
    hasTargetCol := true, hasDateCol := true }

/-- Demonstration file collection. -/
def demoFiles : List SrcFile := [demoFile]

/-- The consolidated row of index 2 produced from `demoFile`. -/
def demoRow : FRow := { idx := 2, date := 0, target := 1, feats := [] }

/-- A 51-row file that passes the per-file guard but whose every shifted
target (20000) fails the range filter, so it contributes no rows. -/
def allOutFile : SrcFile :=
  { rows := List.replicate 51 { date := 0, target := some 20000, feats := [] },
    hasTargetCol := true, hasDateCol := true }

/-- A file rejected by the per-file guard: no rows. -/
def smallFile : SrcFile := { rows := [], hasTargetCol := true, hasDateCol := true }

/-- A demonstration model: probability 1 for class 1 on every row. -/
def demoModel : List ℚ → ℚ × ℚ := fun _ => (0, 1)

/-- A demonstration external date parser. -/
def demoParse : String → Int := fun _ => 0

/-- A Scorer input row whose date is already temporal. -/
def demoSRow : SRow := { date := DateVal.ts 0, target := 0, feats := [] }

/-- A Scorer input row with a textual date entry. -/
def rawSRow : SRow := { date := DateVal.raw "2024-01-01", target := 3, feats := [5] }

/-- The row `demoModel` produces from `demoSRow`. -/
def demoScored : ScoredRow :=
  { date := DateVal.ts 0, target := 0, feats := [], upProbability := 1, upPrediction := 1 }

/-! ### Structure lemmas for the Assembler -/

theorem shiftAux_length (tbl : List SrcRow) : ∀ k, (shiftAux k tbl).length = tbl.length := by
  induction tbl with
  | nil => intro k; rfl
  | cons r rest ih => intro k; simp [shiftAux, ih]

theorem shift_target_length (tbl : List SrcRow) : (shift_target tbl).length = tbl.length :=
  shiftAux_length tbl 0

theorem shiftAux_getElem? (tbl : List SrcRow) : ∀ (k j : Nat),
    (shiftAux k tbl)[j]? = tbl[j]?.map fun r =>
      { idx := k + j, date := r.date, starget := tbl[j + 1]?.bind SrcRow.target,
        feats := r.feats } := by
  induction tbl with
  | nil => intro k j; simp [shiftAux]
  | cons r rest ih =>
    intro k j
    cases j with
    | zero =>
      simp only [shiftAux, List.getElem?_cons_zero, List.getElem?_cons_succ,
        Option.map_some']
      rfl
    | succ j =>
      simp only [shiftAux, List.getElem?_cons_succ, ih (k + 1) j]
      have h : k + 1 + j = k + (j + 1) := by omega
      rw [h]

theorem trim_length (l : List α) : (trim l).length = l.length - 4 := by
  simp [trim]
  omega

theorem trim_getElem? (l : List α) (j : Nat) :
    (trim l)[j]? = if j < l.length - 4 then l[j + 2]? else none := by
  by_cases h : j < l.length - 4
  · rw [if_pos h]
    simp only [trim, List.getElem?_take, if_pos h, List.getElem?_drop]
    congr 1
    omega
  · rw [if_neg h]
    apply List.getElem?_eq_none
    rw [trim_length]
    omega

theorem mem_trim (l : List α) (x : α) (h : x ∈ trim l) :
    ∃ j, j < l.length - 4 ∧ l[j + 2]? = some x := by
  obtain ⟨j, hj⟩ := List.mem_iff_getElem?.mp h
  rw [trim_getElem? l j] at hj
  by_cases hlt : j < l.length - 4
  · exact ⟨j, hlt, by rwa [if_pos hlt] at hj⟩
  · rw [if_neg hlt] at hj; cases hj

theorem mem_transformFile (tbl : List SrcRow) (r : FRow) (h : r ∈ transformFile tbl) :
    2 ≤ r.idx ∧ r.idx + 2 < tbl.length ∧
      tbl[r.idx + 1]?.bind SrcRow.target = some r.target ∧
      targetInRange r.target = true := by
  unfold transformFile filterTargetRange at h
  obtain ⟨hmem, hrange⟩ := List.mem_filter.mp h
  unfold dropna at hmem
  obtain ⟨s, hs, hmap⟩ := List.mem_filterMap.mp hmem
  obtain ⟨t, ht, hr⟩ := Option.map_eq_some'.mp hmap
  obtain ⟨j, hj, hget⟩ := mem_trim _ _ hs
  rw [shift_target_length] at hj
  rw [shift_target, shiftAux_getElem? tbl 0 (j + 2)] at hget
  obtain ⟨r0, hr0, hsr⟩ := Option.map_eq_some'.mp hget
  subst hr
  subst hsr
  simp only [Nat.zero_add] at ht hrange ⊢
  exact ⟨by omega, by omega, by rw [← ht], hrange⟩

theorem transformFile_count (tbl : List SrcRow) :
    (transformFile tbl).length + dropped_null tbl + dropped_out_of_range tbl
      = tbl.length - 4 := by
  have key : ∀ L : List ShRow,
      (filterTargetRange (dropna L)).length
        + (L.filter fun r => r.starget.isNone).length
        + (L.filter fun r =>
            match r.starget with
            | some t => !targetInRange t
            | none => false).length = L.length := by
    intro L
    induction L with
    | nil => rfl
    | cons s L ih =>
      simp only [filterTargetRange, dropna] at ih ⊢
      cases hst : s.starget with
      | none =>
        simp [List.filterMap_cons, hst, List.filter_cons]
        omega
      | some t =>
        cases htr : targetInRange t with
        | true =>
          simp [List.filterMap_cons, hst, List.filter_cons, htr]
          omega
        | false =>
          simp [List.filterMap_cons, hst, List.filter_cons, htr]
          omega
  have h := key (trim (shift_target tbl))
  unfold transformFile dropped_null dropped_out_of_range
  rw [h, trim_length, shift_target_length]

theorem mem_final_df (shuffle : List FRow → List FRow) (files : List SrcFile)
    (hs : ∀ l, List.Perm (shuffle l) l) (r : FRow) (h : r ∈ final_df shuffle files) :
    ∃ f ∈ files, keepFile f = true ∧ r ∈ transformFile f.rows := by
  unfold final_df at h
  obtain ⟨b, hb, hrb⟩ := List.mem_flatten.mp h
  obtain ⟨g, hg, hbg⟩ := List.mem_map.mp hb
  subst hbg
  have hrg : r ∈ g := (hs g).mem_iff.mp hrb
  unfold groupByDate at hg
  obtain ⟨d, _, hgd⟩ := List.mem_map.mp hg
  subst hgd
  have hrc : r ∈ combined_df files := (List.mem_filter.mp hrg).1
  unfold combined_df at hrc
  obtain ⟨f, hf, hrf⟩ := List.mem_flatMap.mp hrc
  obtain ⟨hfmem, hfkeep⟩ := List.mem_filter.mp hf
  exact ⟨f, hfmem, hfkeep, hrf⟩

theorem flatten_blocks_contiguous :
    ∀ gs : List (Int × List FRow), (gs.map Prod.fst).Nodup →
      (∀ g ∈ gs, ∀ r ∈ g.2, r.date = g.1) →
      ∀ d : Int, ∃ p m s, (gs.map Prod.snd).flatten = p ++ m ++ s ∧
        (∀ r ∈ m, r.date = d) ∧ (∀ r ∈ p, r.date ≠ d) ∧ (∀ r ∈ s, r.date ≠ d) := by
  intro gs
  induction gs with
  | nil =>
    intro _ _ d
    exact ⟨[], [], [], by simp, by simp, by simp, by simp⟩
  | cons g gs ih =>
    intro hnd hdate d
    have hnd' : (gs.map Prod.fst).Nodup := (List.nodup_cons.mp (by simpa using hnd)).2
    have hni : g.1 ∉ gs.map Prod.fst := (List.nodup_cons.mp (by simpa using hnd)).1
    have hdate' : ∀ g' ∈ gs, ∀ r ∈ g'.2, r.date = g'.1 := fun g' hg' =>
      hdate g' (List.mem_cons_of_mem g hg')
    have hrest : ∀ r ∈ (gs.map Prod.snd).flatten, r.date ≠ g.1 := by
      intro r hr
      obtain ⟨b, hb, hrb⟩ := List.mem_flatten.mp hr
      obtain ⟨g', hg', hbg⟩ := List.mem_map.mp hb
      subst hbg
      rw [hdate' g' hg' r hrb]
      intro hc
      exact hni (hc ▸ List.mem_map.mpr ⟨g', hg', rfl⟩)
    by_cases hd : d = g.1
    · refine ⟨[], g.2, (gs.map Prod.snd).flatten, by simp, ?_, by simp, ?_⟩
      · intro r hr; rw [hdate g (List.mem_cons_self g gs) r hr, hd]
      · intro r hr; rw [hd]; exact hrest r hr
    · obtain ⟨p, m, s, heq, hm, hp, hsx⟩ := ih hnd' hdate' d
      refine ⟨g.2 ++ p, m, s, ?_, hm, ?_, hsx⟩
      · simp only [List.map_cons, List.flatten_cons, heq, List.append_assoc]
      · intro r hr
        rcases List.mem_append.mp hr with hr | hr
        · rw [hdate g (List.mem_cons_self g gs) r hr]
          exact fun hc => hd hc.symm
        · exact hp r hr

theorem final_df_contiguous (shuffle : List FRow → List FRow) (files : List SrcFile)
    (hs : ∀ l, List.Perm (shuffle l) l) : datesContiguous (final_df shuffle files) := by
  intro d
  set c := combined_df files with hc
  have key := flatten_blocks_contiguous
    ((sortedDates c).map fun d0 => (d0, shuffle (c.filter fun r => decide (r.date = d0))))
  have hnd : (((sortedDates c).map fun d0 =>
      (d0, shuffle (c.filter fun r => decide (r.date = d0)))).map Prod.fst).Nodup := by
    have heq : (((sortedDates c).map fun d0 =>
        (d0, shuffle (c.filter fun r => decide (r.date = d0)))).map Prod.fst)
          = sortedDates c := by
      rw [List.map_map]
      exact List.map_id' _
    rw [heq]
    exact (List.perm_insertionSort _ _).nodup_iff.mpr (List.nodup_dedup _)
  have hdate : ∀ g ∈ (sortedDates c).map fun d0 =>
      (d0, shuffle (c.filter fun r => decide (r.date = d0))), ∀ r ∈ g.2, r.date = g.1 := by
    intro g hg r hr
    obtain ⟨d0, _, hgd⟩ := List.mem_map.mp hg
    subst hgd
    have : r ∈ c.filter fun r => decide (r.date = d0) := (hs _).mem_iff.mp hr
    exact of_decide_eq_true (List.mem_filter.mp this).2
  obtain ⟨p, m, s, heq, hm, hp, hsx⟩ := key hnd hdate d
  refine ⟨p, m, s, ?_, hm, hp, hsx⟩
  rw [← heq]
  unfold final_df groupByDate
  rw [← hc, List.map_map, List.map_map]
  rfl

theorem groupByDate_eq_nil (l : List FRow) : groupByDate l = [] ↔ l = [] := by
  constructor
  · intro h
    unfold groupByDate at h
    have hsd : sortedDates l = [] := List.map_eq_nil_iff.mp h
    unfold sortedDates at hsd
    have hperm := List.perm_insertionSort (· ≤ · : Int → Int → Prop) (l.map FRow.date).dedup
    rw [hsd] at hperm
    have hdd : (l.map FRow.date).dedup = [] := hperm.symm.eq_nil
    exact List.map_eq_nil_iff.mp ((List.dedup_eq_nil _).mp hdd)
  · intro h; subst h; rfl

theorem prepare_isSome_iff (shuffle : List FRow → List FRow) (files : List SrcFile) :
    (prepare_training_data shuffle files).isSome = true ↔
      ∃ f ∈ files, keepFile f = true ∧ transformFile f.rows ≠ [] := by
  unfold prepare_training_data
  by_cases h1 : files.filter keepFile = []
  · rw [if_pos h1]
    simp only [Option.isSome_none, Bool.false_eq_true, false_iff]
    rintro ⟨f, hf, hkeep, _⟩
    have : f ∈ files.filter keepFile := List.mem_filter.mpr ⟨hf, hkeep⟩
    rw [h1] at this
    cases this
  · rw [if_neg h1]
    by_cases h2 : groupByDate (combined_df files) = []
    · rw [if_pos h2]
      simp only [Option.isSome_none, Bool.false_eq_true, false_iff]
      rintro ⟨f, hf, hkeep, hne⟩
      have hc : combined_df files = [] := (groupByDate_eq_nil _).mp h2
      have hf' : f ∈ files.filter keepFile := List.mem_filter.mpr ⟨hf, hkeep⟩
      obtain ⟨x, hx⟩ := List.exists_mem_of_ne_nil _ hne
      have : x ∈ combined_df files := by
        unfold combined_df
        exact List.mem_flatMap.mpr ⟨f, hf', hx⟩
      rw [hc] at this
      cases this
    · rw [if_neg h2]
      simp only [Option.isSome_some, true_iff]
      have hc : combined_df files ≠ [] := fun h => h2 ((groupByDate_eq_nil _).mpr h)
      obtain ⟨x, hx⟩ := List.exists_mem_of_ne_nil _ hc
      unfold combined_df at hx
      obtain ⟨f, hf, hxf⟩ := List.mem_flatMap.mp hx
      obtain ⟨hfmem, hfkeep⟩ := List.mem_filter.mp hf
      exact ⟨f, hfmem, hfkeep, List.ne_nil_of_mem hxf⟩

/-! ### Claim theorems: Assembler -/

/-- C1: for every row `r` of the consolidated training table, the target
value equals the source table's original (pre-shift) target at row index
`r.idx + 1`, and the first two rows (index < 2) and last two rows
(index ≥ length - 2) of each source table never appear.  The within-date
shuffle is any function that permutes its input. -/
theorem consolidated_rows_carry_next_row_target (files : List SrcFile)
    (shuffle : List FRow → List FRow) (hs : ∀ l, List.Perm (shuffle l) l) :
    ∀ r ∈ final_df shuffle files, ∃ f ∈ files, keepFile f = true ∧
      2 ≤ r.idx ∧ r.idx + 2 < f.rows.length ∧
      f.rows[r.idx + 1]?.bind SrcRow.target = some r.target := by
  intro r hr
  obtain ⟨f, hf, hkeep, hmem⟩ := mem_final_df shuffle files hs r hr
  obtain ⟨h1, h2, h3, _⟩ := mem_transformFile f.rows r hmem
  exact ⟨f, hf, hkeep, h1, h2, h3⟩

/-- C1 witness: the identity shuffle permutes, the demonstration row of
index 2 is in the consolidated table of `demoFiles`, and the theorem's
conclusion holds for it. -/
theorem consolidated_rows_carry_next_row_target_witness :
    demoRow ∈ final_df id demoFiles ∧
      ∃ f ∈ demoFiles, keepFile f = true ∧ 2 ≤ demoRow.idx ∧
        demoRow.idx + 2 < f.rows.length ∧
        f.rows[demoRow.idx + 1]?.bind SrcRow.target = some demoRow.target :=
  ⟨by decide,
    consolidated_rows_carry_next_row_target demoFiles id
      (fun l => List.Perm.refl l) demoRow (by decide)⟩

/-- C5: in the consolidated training table, all rows bearing a given date
form one contiguous block, for any number of input files and any
within-group shuffle that permutes its input. -/
theorem consolidated_dates_form_contiguous_blocks (shuffle : List FRow → List FRow)
    (files : List SrcFile) (hs : ∀ l, List.Perm (shuffle l) l) :
    datesContiguous (final_df shuffle files) :=
  final_df_contiguous shuffle files hs

/-- C5 witness: the conclusion instantiated at the identity shuffle and the
demonstration files. -/
theorem consolidated_dates_form_contiguous_blocks_witness :
    datesContiguous (final_df id demoFiles) :=
  consolidated_dates_form_contiguous_blocks id demoFiles (fun l => List.Perm.refl l)

/-- C10: on the non-reuse path the previously persisted consolidated table
is removed before the input files are read, so whenever assembly terminates
fatally (in particular when no selected file passes the per-file guard) the
canonical output path holds no file afterwards, whatever it held before:
persistence is not atomic with respect to failure. -/
theorem assembler_failure_destroys_cache :
    (∀ (prior : Option (List FRow)) (shuffle : List FRow → List FRow)
        (files : List SrcFile), prepare_training_data shuffle files = none →
        prepareRun false prior shuffle files = (none, none)) ∧
    (∀ (shuffle : List FRow → List FRow) (files : List SrcFile),
        files.filter keepFile = [] → prepare_training_data shuffle files = none) := by
  constructor
  · intro prior shuffle files h
    cases prior <;> simp [prepareRun, h]
  · intro shuffle files h
    simp [prepare_training_data, h]

/-- C10 witness: with a cached table present and an empty selection, the
run fails and the cache is gone. -/
theorem assembler_failure_destroys_cache_witness :
    prepare_training_data id ([] : List SrcFile) = none ∧
      prepareRun false (some [demoRow]) id [] = (none, none) :=
  ⟨by decide, assembler_failure_destroys_cache.1 (some [demoRow]) id [] (by decide)⟩

/-- C4 counterexample: a 51-row file with both required columns passes the
per-file guard, yet when its every shifted target lies outside the range
filter the Assembler contributes no rows, the concatenated table is empty,
and the run raises (`pd.concat` of no groups): the claim "the run succeeds
if any file survives" fails at this input. -/
theorem assembler_success_needs_rows_cex :
    keepFile allOutFile = true ∧ prepare_training_data id [allOutFile] = none := by
  exact ⟨by decide, by decide⟩

/-- C4 (amended): for every input table with more than 50 rows and both
required columns the Assembler contributes exactly
row-count - 4 - dropped-null - dropped-out-of-range rows; a shifted target
of exactly 10000 or -10000 is retained and 10001 is dropped; a table with
at most 50 rows or a missing column is silently skipped; and the run
succeeds exactly when some surviving file contributes at least one row
(not merely when some file survives the guard). -/
theorem assembler_per_file_contribution :
    (∀ tbl : List SrcRow, 50 < tbl.length →
      (transformFile tbl).length + dropped_null tbl + dropped_out_of_range tbl + 4
        = tbl.length) ∧
    targetInRange 10000 = true ∧ targetInRange (-10000) = true ∧
    targetInRange 10001 = false ∧
    (∀ (f : SrcFile) (pre post : List SrcFile), keepFile f = false →
      combined_df (pre ++ f :: post) = combined_df (pre ++ post)) ∧
    (∀ (shuffle : List FRow → List FRow) (files : List SrcFile),
      (prepare_training_data shuffle files).isSome = true ↔
        ∃ f ∈ files, keepFile f = true ∧ transformFile f.rows ≠ []) := by
  refine ⟨?_, by decide, by decide, by decide, ?_, prepare_isSome_iff⟩
  · intro tbl h
    have := transformFile_count tbl
    omega
  · intro f pre post h
    unfold combined_df
    rw [List.filter_append, List.filter_append, List.filter_cons, h]
    simp

/-- C4 (amended) witness: the count identity at the 51-row demonstration
file (47 + 0 + 0 + 4 = 51) and the silent skip of an empty file. -/
theorem assembler_per_file_contribution_witness :
    (50 < demoFile.rows.length ∧
      (transformFile demoFile.rows).length + dropped_null demoFile.rows
        + dropped_out_of_range demoFile.rows + 4 = demoFile.rows.length) ∧
    (keepFile smallFile = false ∧
      combined_df ([demoFile] ++ smallFile :: []) = combined_df ([demoFile] ++ [])) :=
  ⟨⟨by decide, assembler_per_file_contribution.1 demoFile.rows (by decide)⟩,
    ⟨by decide, assembler_per_file_contribution.2.2.2.2.1 smallFile [demoFile] [] (by decide)⟩⟩

/-! ### Claim theorems: Trainer -/

/-- C3: the Trainer's training set is the first `9 * n / 10` rows of the
consolidated table in current order, the validation set the remaining final
rows, with no shuffling (their concatenation is the table itself); for
n = 168 this gives 151 training rows and 17 validation rows. -/
theorem trainer_chronological_split :
    (∀ l : List FRow, X_train l ++ X_test l = l ∧
      (X_train l).length = 9 * l.length / 10 ∧
      (X_test l).length = l.length - 9 * l.length / 10) ∧
    (∀ l : List FRow, l.length = 168 →
      (X_train l).length = 151 ∧ (X_test l).length = 17) := by
  constructor
  · intro l
    refine ⟨List.take_append_drop _ l, ?_, ?_⟩
    · simp only [X_train, List.length_take, split_index]
      omega
    · simp only [X_test, List.length_drop, split_index]
  · intro l h
    constructor
    · simp only [X_train, List.length_take, split_index, h]
      decide
    · simp only [X_test, List.length_drop, split_index, h]

/-- C3 witness: a 168-row table splits into 151 training and 17 validation
rows. -/
theorem trainer_chronological_split_witness :
    (List.replicate 168 demoRow).length = 168 ∧
      (X_train (List.replicate 168 demoRow)).length = 151 ∧
      (X_test (List.replicate 168 demoRow)).length = 17 :=
  ⟨List.length_replicate 168 demoRow,
    (trainer_chronological_split.2 _ (List.length_replicate 168 demoRow)).1,
    (trainer_chronological_split.2 _ (List.length_replicate 168 demoRow)).2⟩

/-- C7: the configuration record declares class weights {0: 1.0, 1: 1.75},
but the classifier is constructed with the hard-coded {0: 1, 1: 1.5};
changing the configured class weight has no effect on any constructor
argument. -/
theorem trainer_overrides_configured_class_weight :
    config.class_weight = (1, 1.75) ∧
    (∀ cfg : Config, (rf_classifier cfg).class_weight = (1, 1.5)) ∧
    (rf_classifier config).class_weight ≠ config.class_weight ∧
    (∀ (cfg : Config) (cw : ℚ × ℚ),
      rf_classifier { cfg with class_weight := cw } = rf_classifier cfg) := by
  have h175 : ratLit175 = (1.75 : ℚ) := by
    unfold ratLit175
    rw [Rat.mk'_eq_divInt, Rat.divInt_eq_div]
    norm_num
  have h150 : ratLit150 = (1.5 : ℚ) := by
    unfold ratLit150
    rw [Rat.mk'_eq_divInt, Rat.divInt_eq_div]
    norm_num
  refine ⟨?_, ?_, by decide, ?_⟩
  · show (1, ratLit175) = (1, 1.75)
    rw [h175]
  · intro cfg
    show (1, ratLit150) = (1, 1.5)
    rw [h150]
  · intro cfg cw
    rfl

/-- C2: on the held-out rows the prediction is 1 when P(class 1) is at
least `confidence_threshold_pos`, else 0 when P(class 0) is at least
`confidence_threshold_neg`, else -1; both thresholds default to 0.62; and
every row predicted -1 is excluded from the computation of accuracy,
weighted F1, weighted precision and weighted recall (inserting an abstained
row anywhere leaves all four metrics unchanged). -/
theorem trainer_dual_threshold_and_abstention_exclusion :
    (∀ (pos neg : ℚ) (p : ℚ × ℚ),
      (thresholdPred pos neg p = 1 ↔ pos ≤ p.2) ∧
      (thresholdPred pos neg p = 0 ↔ p.2 < pos ∧ neg ≤ p.1) ∧
      (thresholdPred pos neg p = -1 ↔ p.2 < pos ∧ p.1 < neg)) ∧
    (∀ (pos neg : ℚ) (probs : List (ℚ × ℚ)) (i : Nat) (p : ℚ × ℚ),
      probs[i]? = some p →
        (predictions pos neg probs)[i]? = some (thresholdPred pos neg p)) ∧
    confidence_threshold_pos = 0.62 ∧ confidence_threshold_neg = 0.62 ∧
    (∀ (pos neg : ℚ) (ys1 ys2 : List Int) (probs1 probs2 : List (ℚ × ℚ))
        (y : Int) (p : ℚ × ℚ), ys1.length = probs1.length →
      thresholdPred pos neg p = -1 →
      evaluateModel pos neg (ys1 ++ y :: ys2) (probs1 ++ p :: probs2)
        = evaluateModel pos neg (ys1 ++ ys2) (probs1 ++ probs2)) := by
  have h62 : ratLit62 = (0.62 : ℚ) := by
    unfold ratLit62
    rw [Rat.mk'_eq_divInt, Rat.divInt_eq_div]
    norm_num
  refine ⟨?_, ?_, h62, h62, ?_⟩
  · intro pos neg p
    unfold thresholdPred
    split_ifs with h2 h1
    · exact ⟨by simp [h2], by simp [not_lt.mpr h2], by simp [not_lt.mpr h2]⟩
    · exact ⟨by simp [h2], by simp [not_le.mp h2, h1], by simp [not_lt.mpr h1]⟩
    · exact ⟨by simp [h2], by simp [h1], by simp [not_le.mp h2, not_le.mp h1]⟩
  · intro pos neg probs i p h
    unfold predictions
    rw [List.getElem?_map, h]
    rfl
  · intro pos neg ys1 ys2 probs1 probs2 y p hlen hpred
    have hl : retainedPairs (ys1 ++ y :: ys2)
          (predictions pos neg (probs1 ++ p :: probs2))
        = retainedPairs (ys1 ++ ys2) (predictions pos neg (probs1 ++ probs2)) := by
      unfold predictions retainedPairs
      rw [List.map_append, List.map_append, List.map_cons]
      rw [List.zip_append (by simp [hlen]), List.zip_append (by simp [hlen])]
      rw [List.zip_cons_cons, List.filter_append, List.filter_append,
        List.filter_cons]
      simp [hpred]
    unfold evaluateModel
    rw [hl]

/-- C2 witness: with the default thresholds, the probability row (1, 0)
yields prediction 0, the row (0, 0) abstains, and removing the abstained
row leaves the four metrics unchanged. -/
theorem trainer_dual_threshold_and_abstention_exclusion_witness :
    ([(1 : Int)].length = [((1 : ℚ), (0 : ℚ))].length) ∧
    thresholdPred confidence_threshold_pos confidence_threshold_neg ((0 : ℚ), (0 : ℚ)) = -1 ∧
    evaluateModel confidence_threshold_pos confidence_threshold_neg
        ([1] ++ 0 :: []) ([(1, 0)] ++ ((0 : ℚ), (0 : ℚ)) :: [])
      = evaluateModel confidence_threshold_pos confidence_threshold_neg
        ([1] ++ []) ([(1, 0)] ++ []) :=
  ⟨rfl, by decide,
    trainer_dual_threshold_and_abstention_exclusion.2.2.2.2
      confidence_threshold_pos confidence_threshold_neg [1] [] [(1, 0)] [] 0 (0, 0)
      rfl (by decide)⟩

/-- C8 counterexample: when every held-out prediction is an abstention the
retained set is empty and the accuracy metric is the mean of an empty
array — NaN (modelled `none`), not 0: `accuracy_score` has no
zero-division parameter, so the claim fails for accuracy. -/
theorem trainer_accuracy_not_zero_on_empty_cex :
    predictions confidence_threshold_pos confidence_threshold_neg
        [((0 : ℚ), (0 : ℚ))] = [-1] ∧
    retainedPairs [1] (predictions confidence_threshold_pos
        confidence_threshold_neg [((0 : ℚ), (0 : ℚ))]) = [] ∧
    (evaluateModel confidence_threshold_pos confidence_threshold_neg
        [1] [((0 : ℚ), (0 : ℚ))]).1 = none :=
  ⟨by decide, by decide, by decide⟩

/-- C8 (amended): weighted F1, weighted precision, weighted recall and the
per-class entries of the classification report all report 0 whenever their
denominator is zero (class absent from predictions or from the retained
true labels, or an empty retained set); accuracy, which has no
zero-division parameter, is undefined (NaN, modelled `none`) rather than 0
when every validation prediction is an abstention. -/
theorem trainer_metrics_zero_division :
    (∀ (c : Int) (l : List (Int × Int)), predictedOf c l = 0 → precisionOf c l = 0) ∧
    (∀ (c : Int) (l : List (Int × Int)), supportOf c l = 0 → recallOf c l = 0) ∧
    (∀ (c : Int) (l : List (Int × Int)),
      precisionOf c l + recallOf c l = 0 → f1Of c l = 0) ∧
    (∀ (l : List (Int × Int)) (c : Int) (pr rc fv : ℚ) (sup : Nat),
      (c, pr, rc, fv, sup) ∈ classification_report l →
        (predictedOf c l = 0 → pr = 0) ∧ (supportOf c l = 0 → rc = 0)) ∧
    (f1_score [] = 0 ∧ precision_score [] = 0 ∧ recall_score [] = 0) ∧
    (∀ (pos neg : ℚ) (ys : List Int) (probs : List (ℚ × ℚ)),
      retainedPairs ys (predictions pos neg probs) = [] →
        evaluateModel pos neg ys probs = (none, 0, 0, 0)) := by
  have hprec : ∀ (c : Int) (l : List (Int × Int)),
      predictedOf c l = 0 → precisionOf c l = 0 := by
    intro c l h
    unfold precisionOf safeDiv
    rw [h]
    simp
  have hrec : ∀ (c : Int) (l : List (Int × Int)),
      supportOf c l = 0 → recallOf c l = 0 := by
    intro c l h
    unfold recallOf safeDiv
    rw [h]
    simp
  refine ⟨hprec, hrec, ?_, ?_, ⟨by decide, by decide, by decide⟩, ?_⟩
  · intro c l h
    unfold f1Of safeDiv
    rw [h]
    simp
  · intro l c pr rc fv sup hmem
    obtain ⟨c0, _, heq⟩ := List.mem_map.mp hmem
    have hc : c0 = c := congrArg Prod.fst heq
    subst hc
    have hpr : precisionOf c0 l = pr := congrArg (fun q => q.2.1) heq
    have hrc2 : recallOf c0 l = rc := congrArg (fun q => q.2.2.1) heq
    exact ⟨fun h => hpr ▸ hprec c0 l h, fun h => hrc2 ▸ hrec c0 l h⟩
  · intro pos neg ys probs h
    unfold evaluateModel
    rw [h]
    decide

/-- C8 (amended) witness: a concrete class absent from the predictions has
precision 0, and an all-abstention evaluation yields (NaN, 0, 0, 0). -/
theorem trainer_metrics_zero_division_witness :
    (predictedOf 0 [((1 : Int), (1 : Int))] = 0 ∧
      precisionOf 0 [((1 : Int), (1 : Int))] = 0) ∧
    (retainedPairs [1] (predictions confidence_threshold_pos
        confidence_threshold_neg [((0 : ℚ), (0 : ℚ))]) = [] ∧
      evaluateModel confidence_threshold_pos confidence_threshold_neg
        [1] [((0 : ℚ), (0 : ℚ))] = (none, 0, 0, 0)) :=
  ⟨⟨by decide, trainer_metrics_zero_division.1 0 [((1 : Int), (1 : Int))] (by decide)⟩,
    ⟨by decide, trainer_metrics_zero_division.2.2.2.2.2 confidence_threshold_pos
      confidence_threshold_neg [1] [((0 : ℚ), (0 : ℚ))] (by decide)⟩⟩

/-! ### Claim theorems: Scorer -/

/-- C6: in every Scorer output row, UpProbability is the model's predicted
probability of class 1 for that row's features and lies in [0, 1] (given
the predict-proba contract), and UpPrediction is 1 exactly when
UpProbability is at least 0.62 and 0 otherwise — never -1. -/
theorem scorer_probability_and_threshold (model : List ℚ → ℚ × ℚ)
    (parse : String → Int) (tbl : List SRow)
    (hm : ∀ fs, isProbPair (model fs)) :
    up_threshold = 0.62 ∧
    ∀ r ∈ predict_and_save model parse tbl,
      r.upProbability = (model r.feats).2 ∧
      0 ≤ r.upProbability ∧ r.upProbability ≤ 1 ∧
      (r.upPrediction = 1 ↔ up_threshold ≤ r.upProbability) ∧
      (r.upPrediction = 0 ↔ r.upProbability < up_threshold) ∧
      r.upPrediction ≠ -1 := by
  constructor
  · unfold up_threshold ratLit62
    rw [Rat.mk'_eq_divInt, Rat.divInt_eq_div]
    norm_num
  · intro r hr
    obtain ⟨r0, _, hr0⟩ := List.mem_map.mp hr
    obtain ⟨h0, h1, hsum⟩ := hm r0.feats
    subst hr0
    refine ⟨rfl, h1, by linarith, ?_, ?_, ?_⟩
    · by_cases h : up_threshold ≤ (model r0.feats).2
      · simp [h]
      · simp [h]
    · by_cases h : up_threshold ≤ (model r0.feats).2
      · simp [h, not_lt.mpr h]
      · simp [h, not_le.mp h]
    · by_cases h : up_threshold ≤ (model r0.feats).2
      · simp [h]
      · simp [h]

/-- C6 witness: the demonstration model satisfies the probability contract
and the scored demonstration row satisfies the conclusion. -/
theorem scorer_probability_and_threshold_witness :
    demoScored ∈ predict_and_save demoModel demoParse [demoSRow] ∧
    (demoScored.upProbability = (demoModel demoScored.feats).2 ∧
      0 ≤ demoScored.upProbability ∧ demoScored.upProbability ≤ 1 ∧
      (demoScored.upPrediction = 1 ↔ up_threshold ≤ demoScored.upProbability) ∧
      (demoScored.upPrediction = 0 ↔ demoScored.upProbability < up_threshold) ∧
      demoScored.upPrediction ≠ -1) :=
  ⟨by decide,
    (scorer_probability_and_threshold demoModel demoParse [demoSRow]
      (fun _ => ⟨le_refl 0, zero_le_one, zero_add 1⟩)).2 demoScored (by decide)⟩

/-- C9 counterexample: the Scorer coerces the date column with
`pd.to_datetime` before writing, so an input file whose date entries are
textual is not preserved byte-identical — its date column is rewritten to
the parsed temporal values. -/
theorem scorer_rewrites_textual_date_cex :
    (predict_and_save demoModel demoParse [rawSRow]).map ScoredRow.date
      ≠ [rawSRow.date] ∧
    (predict_and_save demoModel demoParse [rawSRow]).length = [rawSRow].length :=
  ⟨by decide, by decide⟩

/-- C9 (amended): for every input file the Scorer output has exactly the
input's row count; every column other than the date column is preserved
unchanged; the date column is `pd.to_datetime` of the input and hence
preserved whenever the input entry is already temporal; the only appended
columns are UpProbability and UpPrediction. -/
theorem scorer_preserves_rows_and_columns (model : List ℚ → ℚ × ℚ)
    (parse : String → Int) (tbl : List SRow) :
    (predict_and_save model parse tbl).length = tbl.length ∧
    ∀ (i : Nat) (r : SRow), tbl[i]? = some r →
      (predict_and_save model parse tbl)[i]? = some
        { date := to_datetime parse r.date, target := r.target, feats := r.feats,
          upProbability := (model r.feats).2,
          upPrediction := if up_threshold ≤ (model r.feats).2 then 1 else 0 } ∧
      ((∃ t : Int, r.date = DateVal.ts t) → to_datetime parse r.date = r.date) := by
  constructor
  · unfold predict_and_save
    rw [List.length_map]
  · intro i r h
    constructor
    · unfold predict_and_save
      rw [List.getElem?_map, h]
      rfl
    · rintro ⟨t, ht⟩
      rw [ht]
      rfl

/-- C9 (amended) witness: the single-row demonstration table is scored into
exactly one row preserving target, features and the (already temporal)
date. -/
theorem scorer_preserves_rows_and_columns_witness :
    ([demoSRow][0]? = some demoSRow) ∧
    (predict_and_save demoModel demoParse [demoSRow]).length = 1 ∧
    (predict_and_save demoModel demoParse [demoSRow])[0]? = some
      { date := to_datetime demoParse demoSRow.date, target := demoSRow.target,
        feats := demoSRow.feats,
        upProbability := (demoModel demoSRow.feats).2,
        upPrediction := if up_threshold ≤ (demoModel demoSRow.feats).2 then 1 else 0 } ∧
    to_datetime demoParse demoSRow.date = demoSRow.date :=
  ⟨rfl, (scorer_preserves_rows_and_columns demoModel demoParse [demoSRow]).1,
    ((scorer_preserves_rows_and_columns demoModel demoParse [demoSRow]).2 0
      demoSRow rfl).1,
    ((scorer_preserves_rows_and_columns demoModel demoParse [demoSRow]).2 0
      demoSRow rfl).2 ⟨0, rfl⟩⟩

/-- C7 witness: the override evaluated at the concrete configuration
record: declared (1, 1.75), fitted with (1, 1.5). -/
theorem trainer_overrides_configured_class_weight_witness :
    config.class_weight = (1, 1.75) ∧
      (rf_classifier config).class_weight = (1, 1.5) :=
  ⟨trainer_overrides_configured_class_weight.1,
    trainer_overrides_configured_class_weight.2.1 config⟩
